import Mathlib

/-!
Shallow embedding of the tile-archive access layer of `rust-mbtileserver`
(`src/utils.rs`, `src/tiles.rs`), together with theorems checking the
natural-language specification against it.

Conventions used throughout:
* Rust `Vec<u8>` byte buffers are `List Nat` (each entry `< 256` on the
  inputs of interest).
* Rust `String` values coming out of the database are Lean `String`s.
* A fallible Rust call is `Res α`: `.ok` is `Ok(..)`, `.err` is
  `Err(Error)` (the crate has a single unit-like error type in its
  `errors` module), and `.panic` models a Rust panic, i.e. an
  `unwrap()`/slice-out-of-bounds abort that never returns to the caller.
* The external `flate2` and `serde_json` crates are modelled by small
  executable stand-ins, documented at their definitions.
-/

namespace Mbtiles

/-- Outcome of a fallible Rust computation: a returned value, a returned
`Err(Error)`, or a panic (an abort that never returns to the caller). -/
inductive Res (α : Type) where
  | ok (val : α)
  | err
  | panic
deriving DecidableEq, Repr

/-- Embedding of `enum DataFormat` (src/utils.rs:14-23). -/
inductive DataFormat where
  | PNG
  | JPG
  | WEBP
  | JSON
  | PBF
  | GZIP
  | ZLIB
  | UNKNOWN
deriving DecidableEq, Repr

/-- Embedding of `get_data_format` (src/utils.rs:90-101).  The Rust code
slices `&v[0..2]`, `&v[0..8]`, `&v[0..3]`, `&v[0..14]` in this guard
order; slicing a buffer shorter than the requested prefix panics, which is
modelled as `none`.  Guards are evaluated top to bottom, so a slice is
only taken once every earlier guard has failed. -/
def get_data_format (v : List Nat) : Option DataFormat :=
  if v.length < 2 then none
  else if v.take 2 = [0x1f, 0x8b] then some .GZIP
  else if v.take 2 = [0x78, 0x9c] then some .ZLIB
  else if v.length < 8 then none
  else if v.take 8 = [0x89, 0x50, 0x4E, 0x47, 0x0D, 0x0A, 0x1A, 0x0A] then some .PNG
  else if v.take 3 = [0xFF, 0xD8, 0xFF] then some .JPG
  else if v.length < 14 then none
  else if v.take 14 = [0x52, 0x49, 0x46, 0x46, 0xc0, 0x00, 0x00, 0x00,
                       0x57, 0x45, 0x42, 0x50, 0x56, 0x50] then some .WEBP
  else some .UNKNOWN

/-- Is `b` a UTF-8 continuation byte (`0x80 ≤ b ≤ 0xBF`)? -/
def utf8Cont (b : Nat) : Bool :=
  0x80 ≤ b && b ≤ 0xBF

/-- UTF-8 validity of a byte sequence, following the standard table of
well-formed sequences (this is the check `Read::read_to_string` performs
before yielding a Rust `String`). -/
def utf8Valid : List Nat → Bool
  | [] => true
  | b :: r =>
    if b < 0x80 then utf8Valid r
    else if b < 0xC2 then false
    else if b < 0xE0 then
      match r with
      | c1 :: r2 => utf8Cont c1 && utf8Valid r2
      | [] => false
    else if b < 0xF0 then
      match r with
      | c1 :: c2 :: r2 =>
        let lo := if b = 0xE0 then 0xA0 else 0x80
        let hi := if b = 0xED then 0x9F else 0xBF
        (lo ≤ c1 && c1 ≤ hi) && utf8Cont c2 && utf8Valid r2
      | _ => false
    else if b < 0xF5 then
      match r with
      | c1 :: c2 :: c3 :: r2 =>
        let lo := if b = 0xF0 then 0x90 else 0x80
        let hi := if b = 0xF4 then 0x8F else 0xBF
        (lo ≤ c1 && c1 ≤ hi) && utf8Cont c2 && utf8Cont c3 && utf8Valid r2
      | _ => false
    else false

/-- Model of the external `flate2` gzip compressor (`GzEncoder` at the
default level): compression itself is abstracted as the identity tagged
with the three fixed gzip header bytes `1f 8b 08` that every real gzip
stream starts with.  This preserves everything the repository observes
about it: the output is recognised as GZIP by `get_data_format`, and
decompression inverts compression. -/
def gzipCompress (data : List Nat) : List Nat :=
  [0x1f, 0x8b, 0x08] ++ data

/-- Model of the external `flate2` gzip decompressor (`GzDecoder`): strips
the header tag added by `gzipCompress`; a stream without the gzip header
is corrupt and fails, as the real decoder does. -/
def gzipDecompress (data : List Nat) : Option (List Nat) :=
  if data.take 3 = [0x1f, 0x8b, 0x08] then some (data.drop 3) else none

/-- Model of the external `flate2` zlib decompressor (`ZlibDecoder`),
analogous to `gzipDecompress` with the zlib header `78 9c` the repository
checks for. -/
def zlibDecompress (data : List Nat) : Option (List Nat) :=
  if data.take 2 = [0x78, 0x9c] then some (data.drop 2) else none

/-- Embedding of `decode` (src/utils.rs:66-82).  The Rust code runs the
decompressed stream through `read_to_string(..).unwrap()`: a corrupt
stream, or decompressed bytes that are not valid UTF-8, make that
`unwrap()` panic.  The `Ok` payload is the UTF-8 byte sequence of the
resulting string.  Any format other than GZIP/ZLIB returns `Err(Error)`. -/
def decode (data : List Nat) (data_type : DataFormat) : Res (List Nat) :=
  match data_type with
  | .GZIP =>
    match gzipDecompress data with
    | some bytes => if utf8Valid bytes then .ok bytes else .panic
    | none => .panic
  | .ZLIB =>
    match zlibDecompress data with
    | some bytes => if utf8Valid bytes then .ok bytes else .panic
    | none => .panic
  | _ => .err

/-- Embedding of `encode` (src/utils.rs:84-88): gzip-compresses arbitrary
input at the default compression level. -/
def encode (data : List Nat) : List Nat :=
  gzipCompress data

/-- Exact rational, used to model the finite `f64` values the repository
parses out of metadata.  Stored normalized so that equal parsed values are
equal terms. -/
structure Q where
  num : Int
  den : Nat
deriving DecidableEq, Repr

/-- Normalizing constructor for `Q`: divides out the gcd. -/
def mkQ (n : Int) (d : Nat) : Q :=
  let g := Nat.gcd n.natAbs d
  ⟨n / (g : Int), d / g⟩

/-- Is `c` an ASCII digit? -/
def isDigitChar (c : Char) : Bool :=
  48 ≤ c.toNat && c.toNat ≤ 57

/-- Decimal value of a list of ASCII digits. -/
def natOfDigitChars (ds : List Char) : Nat :=
  ds.foldl (fun a c => a * 10 + (c.toNat - 48)) 0

/-- Splits a list into its longest digit prefix and the rest. -/
def spanDigits : List Char → List Char × List Char
  | [] => ([], [])
  | c :: r =>
    if isDigitChar c then
      let p := spanDigits r
      (c :: p.1, p.2)
    else ([], c :: r)

/-- Exponent part of a float literal after the `e`/`E`: optional sign and
a nonempty digit run.  Returns (negative?, digits, rest). -/
def parseExpPart (r : List Char) : Option (Bool × List Char × List Char) :=
  let sp : Bool × List Char :=
    match r with
    | '+' :: rr => (false, rr)
    | '-' :: rr => (true, rr)
    | _ => (false, r)
  let dp := spanDigits sp.2
  if dp.1 = [] then none else some (sp.1, dp.1, dp.2)

/-- Model of the external Rust `str::parse::<f64>` on the finite-decimal
fragment actually exercised by metadata: optional sign, digits, optional
fraction, optional exponent, nothing else (in particular no surrounding
whitespace); at least one digit must be present.  The special spellings
`inf`/`infinity`/`nan` are not modelled.  The value is represented as an
exact rational. -/
def parseF64 (s : List Char) : Option Q :=
  let signed : Bool × List Char :=
    match s with
    | '-' :: r => (true, r)
    | '+' :: r => (false, r)
    | _ => (false, s)
  let ip := spanDigits signed.2
  let fp : List Char × List Char :=
    match ip.2 with
    | '.' :: r => spanDigits r
    | _ => ([], ip.2)
  match (match fp.2 with
         | 'e' :: r => parseExpPart r
         | 'E' :: r => parseExpPart r
         | _ => some (false, [], fp.2)) with
  | none => none
  | some (eneg, eds, s4) =>
    if s4 ≠ [] then none
    else if ip.1 = [] ∧ fp.1 = [] then none
    else
      let mag : Nat := natOfDigitChars ip.1 * 10 ^ fp.1.length + natOfDigitChars fp.1
      let num : Int := if signed.1 then -(mag : Int) else (mag : Int)
      let e := natOfDigitChars eds
      if eneg then some (mkQ num (10 ^ fp.1.length * 10 ^ e))
      else some (mkQ (num * 10 ^ e) (10 ^ fp.1.length))

/-- Model of Rust `str::split(",")`: splits at every comma, keeping empty
pieces (so the empty string yields one empty piece). -/
def splitOnComma : List Char → List (List Char)
  | [] => [[]]
  | c :: r =>
    if c = ',' then [] :: splitOnComma r
    else
      match splitOnComma r with
      | h :: t => (c :: h) :: t
      | [] => [[c]]

/-- Embedding of the `bounds` arm of the metadata loop
(src/tiles.rs:162-164): split on commas, keep every piece that parses as
an `f64`, silently dropping the rest. -/
def parseBounds (value : String) : List Q :=
  (splitOnComma value.data).filterMap parseF64

/-- Model of Rust `str::parse::<u32>`: optional leading `+`, then a
nonempty run of ASCII digits whose value fits in 32 bits. -/
def parseU32 (s : String) : Option Nat :=
  let cs : List Char :=
    match s.data with
    | '+' :: r => r
    | r => r
  if cs = [] then none
  else if cs.all isDigitChar then
    let n := natOfDigitChars cs
    if n < 4294967296 then some n else none
  else none

/-- Row of the `tiles` table, with the columns the repository reads
(src/tiles.rs:277-282). -/
structure TileRow where
  zoom_level : Nat
  tile_column : Nat
  tile_row : Nat
  tile_data : List Nat
deriving DecidableEq, Repr

/-- Row of the `grids` table, with the columns the repository reads
(src/tiles.rs:221-226). -/
structure GridRow where
  zoom_level : Nat
  tile_column : Nat
  tile_row : Nat
  grid : List Nat
deriving DecidableEq, Repr

/-- Row of the `grid_data` table, with the columns the repository reads
(src/tiles.rs:246-251). -/
structure GridDataRow where
  zoom_level : Nat
  tile_column : Nat
  tile_row : Nat
  key_name : String
  key_json : String
deriving DecidableEq, Repr

/-- Model of one candidate archive file on disk: its path, whether
`Connection::open_with_flags` succeeds on it, the set of names present in
`sqlite_master`, and the contents of the tables the repository queries.
Blob columns are byte lists and text columns are strings, matching the
types the Rust code reads them at. -/
structure Db where
  path : String
  openable : Bool
  master_names : List String
  tiles : List TileRow
  metadata : List (String × String)
  grids : List GridRow
  grid_data : List GridDataRow
  grid_utfgrid : List (List Nat)
deriving DecidableEq, Repr

/-- Embedding of `struct TileMeta` (src/tiles.rs:16-33). -/
structure TileMeta where
  path : String
  name : Option String
  version : Option String
  tilejson : String
  scheme : String
  id : String
  tile_format : DataFormat
  grid_format : Option DataFormat
  bounds : Option (List Q)
  minzoom : Option Nat
  maxzoom : Option Nat
  description : Option String
  attribution : Option String
  legend : Option String
  template : Option String
deriving DecidableEq, Repr

/-- Embedding of `get_data_format_via_query` (src/tiles.rs:89-105).
Preparing the query fails (`Err`) when the named table is absent; with
zero rows the `unwrap_or` yields `UNKNOWN`; with a row, `get_data_format`
runs on the blob — and panics on a blob shorter than the sliced prefixes,
which propagates out of the row closure. -/
def get_data_format_via_query (db : Db) (category : String) : Res DataFormat :=
  match category with
  | "tile" =>
    if "tiles" ∈ db.master_names then
      match db.tiles.head? with
      | none => .ok .UNKNOWN
      | some r =>
        match get_data_format r.tile_data with
        | some f => .ok f
        | none => .panic
    else .err
  | "grid" =>
    if "grid_utfgrid" ∈ db.master_names then
      match db.grid_utfgrid.head? with
      | none => .ok .UNKNOWN
      | some blob =>
        match get_data_format blob with
        | some f => .ok f
        | none => .panic
    else .err
  | _ => .err

/-- Embedding of `get_grid_info` (src/tiles.rs:202-214): count the five
grid-support schema objects in `sqlite_master`; only when all five exist
sample the grid format, mapping an `Err` from the sampling query to
`None`. -/
def get_grid_info (db : Db) : Res (Option DataFormat) :=
  let count := (db.master_names.filter (fun n =>
    n == "grids" || n == "grid_data" || n == "grid_utfgrid" ||
    n == "keymap" || n == "grid_key")).length
  if count = 5 then
    match get_data_format_via_query db "grid" with
    | .ok f => .ok (some f)
    | .err => .ok none
    | .panic => .panic
  else .ok none

/-- Embedding of one iteration of the metadata loop in `get_tile_details`
(src/tiles.rs:156-173).  `minzoom`/`maxzoom` use `value.parse().unwrap()`,
so an unparsable value panics; `bounds` parses leniently; unrecognized
keys are ignored. -/
def apply_metadata_row (m : TileMeta) (row : String × String) : Res TileMeta :=
  match row.1 with
  | "name" => .ok { m with name := some row.2 }
  | "version" => .ok { m with version := some row.2 }
  | "bounds" => .ok { m with bounds := some (parseBounds row.2) }
  | "minzoom" =>
    match parseU32 row.2 with
    | some n => .ok { m with minzoom := some n }
    | none => .panic
  | "maxzoom" =>
    match parseU32 row.2 with
    | some n => .ok { m with maxzoom := some n }
    | none => .panic
  | "description" => .ok { m with description := some row.2 }
  | "attribution" => .ok { m with attribution := some row.2 }
  | "legend" => .ok { m with legend := some row.2 }
  | "template" => .ok { m with template := some row.2 }
  | _ => .ok m

/-- Embedding of `get_tile_details` (src/tiles.rs:107-176), the archive
`open()` operation: open the connection read-only (`Err` on failure);
require both `tiles` and `metadata` among the `sqlite_master` names
(`Err` otherwise); sample the tile format (propagating its outcome);
compute the optional grid format; then fold the non-empty metadata rows
(the SQL filters `value IS NOT ''`) over the freshly initialised
`TileMeta`. -/
def get_tile_details (db : Db) (tile_name : String) : Res TileMeta :=
  if db.openable = false then .err
  else
    let count := (db.master_names.filter (fun n =>
      n == "tiles" || n == "metadata")).length
    if count < 2 then .err
    else
      match get_data_format_via_query db "tile" with
      | .err => .err
      | .panic => .panic
      | .ok tile_format =>
        match get_grid_info db with
        | .panic => .panic
        | .err => .err
        | .ok grid_format =>
          let init : TileMeta :=
            { path := db.path
              name := none
              version := none
              tilejson := "2.1.0"
              scheme := "xyz"
              id := tile_name
              tile_format := tile_format
              grid_format := grid_format
              bounds := none
              minzoom := none
              maxzoom := none
              description := none
              attribution := none
              legend := none
              template := none }
          (db.metadata.filter (fun r => r.2 != "")).foldl
            (fun acc row =>
              match acc with
              | .ok m => apply_metadata_row m row
              | e => e)
            (.ok init)

/-- Embedding of `get_blank_image` (src/tiles.rs:290-293): the fixed
single-pixel transparent PNG byte sequence, transcribed byte for byte from
the Rust byte-string literal. -/
def get_blank_image : List Nat :=
  [0x89, 0x50, 0x4E, 0x47, 0x0D, 0x0A, 0x1A, 0x0A,
   0x00, 0x00, 0x00, 0x0D, 0x49, 0x48, 0x44, 0x52,
   0x00, 0x00, 0x01, 0x00, 0x00, 0x00, 0x01, 0x00,
   0x01, 0x03, 0x00, 0x00, 0x00, 0x66, 0xbc, 0x3a,
   0x25, 0x00, 0x00, 0x00, 0x03, 0x50, 0x4C, 0x54,
   0x45, 0x00, 0x00, 0x00, 0xa7, 0x7a, 0x3d, 0xda,
   0x00, 0x00, 0x00, 0x01, 0x74, 0x52, 0x4E, 0x53,
   0x00, 0x40, 0xe6, 0xd8, 0x66, 0x00, 0x00, 0x00,
   0x1f, 0x49, 0x44, 0x41, 0x54, 0x68, 0xde, 0xed,
   0xc1, 0x01, 0x0d, 0x00, 0x00, 0x00, 0xc2, 0x20,
   0xfb, 0xa7, 0x36, 0xc7, 0x37, 0x60, 0x00, 0x00,
   0x00, 0x00, 0x00, 0x00, 0x00, 0x00, 0x71, 0x07,
   0x21, 0x00, 0x00, 0x01, 0xa7, 0x57, 0x29, 0xd7,
   0x00, 0x00, 0x00, 0x00, 0x49, 0x45, 0x4E, 0x44,
   0xae, 0x42, 0x60, 0x82]

/-- Lookup used by the tile query: the first `tiles` row matching the
requested coordinates (the SQL has no ORDER BY; table order stands in for
SQLite row order). -/
def find_tile_row (db : Db) (z x y : Nat) : Option TileRow :=
  db.tiles.find? (fun r =>
    r.zoom_level == z && r.tile_column == x && r.tile_row == y)

/-- Embedding of `get_tile_data` (src/tiles.rs:271-288): opening the
connection and preparing the query both `unwrap()` (panic on failure);
then `query_row(..).unwrap_or(get_blank_image())` turns any query error —
in particular a coordinate with no row — into the blank image, and yields
the stored blob unchanged otherwise. -/
def get_tile_data (db : Db) (z x y : Nat) : Res (List Nat) :=
  if db.openable = false then .panic
  else if "tiles" ∈ db.master_names then
    match find_tile_row db z x y with
    | some r => .ok r.tile_data
    | none => .ok get_blank_image
  else .panic

/-- JSON value, the model of `serde_json::Value`.  Strings are byte lists
(the UTF-8 bytes of the text, with each `\uXXXX` escape contributing its
code unit as one entry). -/
inductive Json where
  | null
  | bool (b : Bool)
  | num (q : Q)
  | str (s : List Nat)
  | arr (elems : List Json)
  | obj (members : List (List Nat × Json))
deriving Repr

/-- Hex digit value of an ASCII byte, if it is one. -/
def hexVal (b : Nat) : Option Nat :=
  if 48 ≤ b ∧ b ≤ 57 then some (b - 48)
  else if 65 ≤ b ∧ b ≤ 70 then some (b - 55)
  else if 97 ≤ b ∧ b ≤ 102 then some (b - 87)
  else none

/-- Decodes one simple JSON string escape character (the byte after the
backslash, other than `u`). -/
def jsonUnescape (b : Nat) : Option Nat :=
  if b = 0x22 then some 0x22
  else if b = 0x5C then some 0x5C
  else if b = 0x2F then some 0x2F
  else if b = 0x62 then some 0x08
  else if b = 0x66 then some 0x0C
  else if b = 0x6E then some 0x0A
  else if b = 0x72 then some 0x0D
  else if b = 0x74 then some 0x09
  else none

/-- Parses the body of a JSON string (after the opening quote) up to and
including the closing quote.  Returns the content and the remaining
input.  Unescaped control bytes and invalid escapes fail, as in
`serde_json`. -/
def parseJsonString : List Nat → Option (List Nat × List Nat)
  | [] => none
  | b :: r =>
    if b = 0x22 then some ([], r)
    else if b = 0x5C then
      match r with
      | [] => none
      | e :: r2 =>
        if e = 0x75 then
          match r2 with
          | h1 :: h2 :: h3 :: h4 :: r3 =>
            match hexVal h1, hexVal h2, hexVal h3, hexVal h4 with
            | some a, some b2, some c, some d =>
              match parseJsonString r3 with
              | some (s, rest) => some ((((a * 16 + b2) * 16 + c) * 16 + d) :: s, rest)
              | none => none
            | _, _, _, _ => none
          | _ => none
        else
          match jsonUnescape e with
          | some ch =>
            match parseJsonString r2 with
            | some (s, rest) => some (ch :: s, rest)
            | none => none
          | none => none
    else if b < 0x20 then none
    else
      match parseJsonString r with
      | some (s, rest) => some (b :: s, rest)
      | none => none

/-- Is `b` the ASCII code of a decimal digit? -/
def isDigitByte (b : Nat) : Bool :=
  48 ≤ b && b ≤ 57

/-- Splits a byte list into its longest digit prefix and the rest. -/
def spanDigitBytes : List Nat → List Nat × List Nat
  | [] => ([], [])
  | b :: r =>
    if isDigitByte b then
      let p := spanDigitBytes r
      (b :: p.1, p.2)
    else ([], b :: r)

/-- Decimal value of a list of ASCII digit bytes. -/
def natOfDigitBytes (ds : List Nat) : Nat :=
  ds.foldl (fun a d => a * 10 + (d - 48)) 0

/-- Parses a JSON number (strict JSON grammar: optional minus; `0` or a
nonzero-led digit run; optional fraction and exponent, each requiring at
least one digit).  Returns its exact rational value and the remaining
input. -/
def parseJsonNumber (s : List Nat) : Option (Q × List Nat) :=
  let signed : Bool × List Nat :=
    match s with
    | 45 :: r => (true, r)
    | _ => (false, s)
  match signed.2 with
  | [] => none
  | d :: r =>
    if ¬ (isDigitByte d = true) then none
    else
      let ip : List Nat × List Nat :=
        if d = 48 then ([48], r) else spanDigitBytes (d :: r)
      let fp : Option (List Nat × List Nat) :=
        match ip.2 with
        | 46 :: r2 =>
          let p := spanDigitBytes r2
          if p.1 = [] then none else some p
        | _ => some ([], ip.2)
      match fp with
      | none => none
      | some (fds, s3) =>
        let ep : Option (Bool × List Nat × List Nat) :=
          match s3 with
          | e :: r3 =>
            if e = 0x65 ∨ e = 0x45 then
              let sp : Bool × List Nat :=
                match r3 with
                | 43 :: rr => (false, rr)
                | 45 :: rr => (true, rr)
                | _ => (false, r3)
              let dp := spanDigitBytes sp.2
              if dp.1 = [] then none else some (sp.1, dp.1, dp.2)
            else some (false, [], s3)
          | [] => some (false, [], s3)
        match ep with
        | none => none
        | some (eneg, eds, s4) =>
          let mag : Nat := natOfDigitBytes ip.1 * 10 ^ fds.length + natOfDigitBytes fds
          let num : Int := if signed.1 then -(mag : Int) else (mag : Int)
          let e := natOfDigitBytes eds
          if eneg then some (mkQ num (10 ^ fds.length * 10 ^ e), s4)
          else some (mkQ (num * 10 ^ e) (10 ^ fds.length), s4)

/-- Drops leading JSON whitespace. -/
def jsonWs : List Nat → List Nat
  | [] => []
  | b :: r =>
    if b = 0x20 ∨ b = 0x09 ∨ b = 0x0A ∨ b = 0x0D then jsonWs r else b :: r

mutual

/-- Fuel-indexed recursive-descent parser for one JSON value, the model of
`serde_json`'s grammar.  Returns the value and the remaining input. -/
def parseJsonValue : Nat → List Nat → Option (Json × List Nat)
  | 0, _ => none
  | fuel + 1, s =>
    match jsonWs s with
    | [] => none
    | b :: r =>
      if b = 0x6E then
        match r with
        | 0x75 :: 0x6C :: 0x6C :: rest => some (.null, rest)
        | _ => none
      else if b = 0x74 then
        match r with
        | 0x72 :: 0x75 :: 0x65 :: rest => some (.bool true, rest)
        | _ => none
      else if b = 0x66 then
        match r with
        | 0x61 :: 0x6C :: 0x73 :: 0x65 :: rest => some (.bool false, rest)
        | _ => none
      else if b = 0x22 then
        match parseJsonString r with
        | some (cs, rest) => some (.str cs, rest)
        | none => none
      else if b = 0x5B then
        match jsonWs r with
        | 0x5D :: rest => some (.arr [], rest)
        | r2 => parseJsonElems fuel r2
      else if b = 0x7B then
        match jsonWs r with
        | 0x7D :: rest => some (.obj [], rest)
        | r2 => parseJsonMembers fuel r2
      else if b = 45 ∨ isDigitByte b then
        match parseJsonNumber (b :: r) with
        | some (q, rest) => some (.num q, rest)
        | none => none
      else none

/-- Parses the non-empty element list of a JSON array, including the
closing bracket. -/
def parseJsonElems : Nat → List Nat → Option (Json × List Nat)
  | 0, _ => none
  | fuel + 1, s =>
    match parseJsonValue fuel s with
    | none => none
    | some (v, rest) =>
      match jsonWs rest with
      | 0x2C :: r2 =>
        match parseJsonElems fuel r2 with
        | some (.arr vs, rest2) => some (.arr (v :: vs), rest2)
        | _ => none
      | 0x5D :: r2 => some (.arr [v], r2)
      | _ => none

/-- Parses the non-empty member list of a JSON object, including the
closing brace. -/
def parseJsonMembers : Nat → List Nat → Option (Json × List Nat)
  | 0, _ => none
  | fuel + 1, s =>
    match jsonWs s with
    | 0x22 :: r =>
      match parseJsonString r with
      | none => none
      | some (k, rest) =>
        match jsonWs rest with
        | 0x3A :: r2 =>
          match parseJsonValue fuel r2 with
          | none => none
          | some (v, rest2) =>
            match jsonWs rest2 with
            | 0x2C :: r3 =>
              match parseJsonMembers fuel r3 with
              | some (.obj ms, rest3) => some (.obj ((k, v) :: ms), rest3)
              | _ => none
            | 0x7D :: r3 => some (.obj [(k, v)], r3)
            | _ => none
        | _ => none
    | _ => none

end

/-- Model of `serde_json::from_str::<Value>` on a byte buffer: parse one
JSON value and require only trailing whitespace after it.  The parser is
fuel-indexed to stay structurally recursive; `2 * length + 4` exceeds the
fuel any input of this length can consume (nesting spends at most two
units per consumed bracket or element). -/
def jsonFromBytes (s : List Nat) : Option Json :=
  match parseJsonValue (2 * s.length + 4) s with
  | some (v, rest) => if jsonWs rest = [] then some v else none
  | none => none

/-- UTF-8 bytes of one scalar value. -/
def charUtf8Bytes (c : Char) : List Nat :=
  let n := c.toNat
  if n < 0x80 then [n]
  else if n < 0x800 then [0xC0 + n / 64, 0x80 + n % 64]
  else if n < 0x10000 then
    [0xE0 + n / 4096, 0x80 + (n / 64) % 64, 0x80 + n % 64]
  else
    [0xF0 + n / 262144, 0x80 + (n / 4096) % 64, 0x80 + (n / 64) % 64, 0x80 + n % 64]

/-- UTF-8 byte sequence of a string. -/
def strBytes (s : String) : List Nat :=
  (s.data.map charUtf8Bytes).flatten

/-- Model of `serde_json::from_str::<Value>` on a Rust string. -/
def json_from_str (s : String) : Option Json :=
  jsonFromBytes (strBytes s)

/-- First member of a JSON object with the given key, the lookup `serde`
performs when deserializing a struct field. -/
def jsonMember (key : List Nat) : List (List Nat × Json) → Option Json
  | [] => none
  | (k, v) :: r => if k = key then some v else jsonMember key r

/-- Requires a JSON value to be an array of strings, as `serde` does for a
`Vec<String>` field. -/
def asStringArray : Json → Option (List (List Nat))
  | .arr es => es.mapM (fun j =>
      match j with
      | .str s => some s
      | _ => none)
  | _ => none

/-- Model of `serde_json::from_str::<UTFGridKeys>` (src/tiles.rs:63-67,
236-237): the payload must be a JSON object with `grid` and `keys`
members, each an array of strings. -/
def parseUTFGridKeys (bytes : List Nat) : Option (List (List Nat) × List (List Nat)) :=
  match jsonFromBytes bytes with
  | some (.obj ms) =>
    match jsonMember [0x67, 0x72, 0x69, 0x64] ms, jsonMember [0x6B, 0x65, 0x79, 0x73] ms with
    | some g, some k =>
      match asStringArray g, asStringArray k with
      | some gs, some ks => some (gs, ks)
      | _, _ => none
    | _, _ => none
  | _ => none

/-- Embedding of `struct UTFGrid` (src/tiles.rs:69-75).  The `data`
`HashMap` is modelled as an association list whose insert replaces any
earlier binding of the same key. -/
structure UTFGrid where
  data : List (String × Json)
  grid : List (List Nat)
  keys : List (List Nat)
deriving Repr

/-- `HashMap::insert`: replaces any earlier binding of the key and adds
the new one. -/
def hmInsert {α : Type} (m : List (String × α)) (k : String) (v : α) :
    List (String × α) :=
  m.filter (fun p => p.1 != k) ++ [(k, v)]

/-- Lookup in the association-list model of a `HashMap`. -/
def hmLookup {α : Type} (m : List (String × α)) (k : String) : Option α :=
  (m.find? (fun p => p.1 == k)).map (fun p => p.2)

/-- `HashMap::extend`: inserts every binding of the second map into the
first. -/
def hmExtend {α : Type} (m m2 : List (String × α)) : List (String × α) :=
  m2.foldl (fun a p => hmInsert a p.1 p.2) m

/-- First `grids` row matching the requested coordinates. -/
def find_grid_row (db : Db) (z x y : Nat) : Option GridRow :=
  db.grids.find? (fun r =>
    r.zoom_level == z && r.tile_column == x && r.tile_row == y)

/-- Embedding of `get_grid_data` (src/tiles.rs:216-269): open and prepare
`unwrap()` (panic on failure); a missing grid row returns `Err(Error)`;
the blob is classified (`get_data_format` panics on a short blob) and
decoded, `decode(..).unwrap()` panicking when `decode` returns `Err` or
panics; `serde_json::from_str::<UTFGridKeys>(..).unwrap()` panics on a
malformed payload; then every matching `grid_data` row has its `key_json`
parsed with `serde_json::from_str(..).unwrap()` — panicking on the first
malformed value — and inserted into the `data` map in row order. -/
def get_grid_data (db : Db) (z x y : Nat) : Res UTFGrid :=
  if db.openable = false then .panic
  else if "grids" ∈ db.master_names then
    match find_grid_row db z x y with
    | none => .err
    | some row =>
      match get_data_format row.grid with
      | none => .panic
      | some data_format =>
        match decode row.grid data_format with
        | .err => .panic
        | .panic => .panic
        | .ok text =>
          match parseUTFGridKeys text with
          | none => .panic
          | some (gs, ks) =>
            if "grid_data" ∈ db.master_names then
              let rows := db.grid_data.filter (fun r =>
                r.zoom_level == z && r.tile_column == x && r.tile_row == y)
              match rows.foldl
                  (fun acc r =>
                    match acc with
                    | Res.ok m =>
                      match json_from_str r.key_json with
                      | some v => Res.ok (hmInsert m r.key_name v)
                      | none => Res.panic
                    | e => e)
                  (Res.ok ([] : List (String × Json))) with
              | .ok m => .ok { data := m, grid := gs, keys := ks }
              | .err => .err
              | .panic => .panic
            else .panic
  else .panic

/-- Model of Rust `Path::file_stem` on one path component: the part
before the last dot, except that a name without a dot, or whose only dot
leads, is its own stem. -/
def fileStem (name : String) : String :=
  match name.data.reverse.findIdx? (fun c => c == '.') with
  | none => name
  | some j =>
    let k := name.data.length - 1 - j
    if k = 0 then name else ⟨name.data.take k⟩

/-- Model of Rust `Path::extension` on one path component: the part after
the last dot, or `none` when there is no dot or the only dot leads. -/
def fileExtension (name : String) : Option String :=
  match name.data.reverse.findIdx? (fun c => c == '.') with
  | none => none
  | some j =>
    let k := name.data.length - 1 - j
    if k = 0 then none else some ⟨name.data.drop (k + 1)⟩

mutual

/-- One entry of a directory tree: a file (its name plus the archive
content model behind it — the `path` inside the `Db` records where it
lives and is otherwise opaque) or a subdirectory. -/
inductive FsEntry where
  | file (name : String) (db : Db)
  | dir (name : String) (entries : FsEntries)

/-- Entries of one directory, in the (unspecified) order `read_dir`
yields them. -/
inductive FsEntries where
  | nil
  | cons (head : FsEntry) (tail : FsEntries)

end

mutual

/-- Processing of a single directory entry inside `discover_tilesets`
(src/tiles.rs:181-197): a subdirectory is walked recursively with the
prefix extended by its file stem and a `/`, and its map `extend`ed into
the accumulator; a file is considered only when its extension is exactly
`"mbtiles"`, in which case a successful `get_tile_details` inserts
(prefix ++ stem, meta) and an `Err` skips the file silently.  A panic
from `get_tile_details` propagates and aborts the walk. -/
def walkEntry (parent_dir : String) (acc : List (String × TileMeta)) :
    FsEntry → Res (List (String × TileMeta))
  | .dir name sub =>
    match walkEntries (parent_dir ++ fileStem name ++ "/") [] sub with
    | .ok m => .ok (hmExtend acc m)
    | .err => .err
    | .panic => .panic
  | .file name db =>
    if fileExtension name = some "mbtiles" then
      match get_tile_details db (fileStem name) with
      | .ok meta => .ok (hmInsert acc (parent_dir ++ fileStem name) meta)
      | .err => .ok acc
      | .panic => .panic
    else .ok acc

/-- Sequential fold of `walkEntry` over a directory's entries,
accumulating the discovered map. -/
def walkEntries (parent_dir : String) (acc : List (String × TileMeta)) :
    FsEntries → Res (List (String × TileMeta))
  | .nil => .ok acc
  | .cons e rest =>
    match walkEntry parent_dir acc e with
    | .ok acc2 => walkEntries parent_dir acc2 rest
    | .err => .err
    | .panic => .panic

end

/-- Embedding of `discover_tilesets` (src/tiles.rs:178-200): walk the
tree depth-first and return the id → `TileMeta` map (modelled as an
association list whose insert replaces earlier bindings, matching
`HashMap` semantics). -/
def discover_tilesets (parent_dir : String) (entries : FsEntries) :
    Res (List (String × TileMeta)) :=
  walkEntries parent_dir [] entries

/-! Concrete fixtures used by the theorems below. -/

/-- Minimal well-formed archive: opens, has the two required schema
objects, and is otherwise empty (zero tile rows is not fatal; the sampled
format becomes `UNKNOWN`). -/
def wGood : Db :=
  { path := "g", openable := true, master_names := ["tiles", "metadata"],
    tiles := [], metadata := [], grids := [], grid_data := [],
    grid_utfgrid := [] }

/-- The `TileMeta` that `get_tile_details` produces for `wGood` under the
given id. -/
def wGoodMeta (tname : String) : TileMeta :=
  { path := "g", name := none, version := none, tilejson := "2.1.0",
    scheme := "xyz", id := tname, tile_format := .UNKNOWN,
    grid_format := none, bounds := none, minzoom := none, maxzoom := none,
    description := none, attribution := none, legend := none,
    template := none }

/-- Corrupt archive: the read-only open fails, so `get_tile_details`
returns `Err`. -/
def wBad : Db :=
  { path := "b", openable := false, master_names := [], tiles := [],
    metadata := [], grids := [], grid_data := [], grid_utfgrid := [] }

/-- Archive with a single stored tile at (1,2,3). -/
def wTileDb : Db :=
  { wGood with tiles := [⟨1, 2, 3, [9, 9]⟩] }

/-- Archive whose metadata holds a `minzoom` that does not parse as a
non-negative integer. -/
def wBadZoomDb : Db :=
  { wGood with metadata := [("minzoom", "abc")] }

/-- Archive whose metadata `bounds` value is four parsable numbers. -/
def wBoundsDb : Db :=
  { wGood with metadata := [("bounds", "-10,20,30,40.5")] }

/-- Archive whose metadata `bounds` value contains one non-numeric
component. -/
def wBoundsDropDb : Db :=
  { wGood with metadata := [("bounds", "-10,abc,30,40.5")] }

/-- UTF-8 bytes of the grid payload `{"grid":[],"keys":[]}` (written here
as explicit bytes). -/
def wGridPayload : List Nat :=
  [0x7B, 0x22, 0x67, 0x72, 0x69, 0x64, 0x22, 0x3A, 0x5B, 0x5D, 0x2C,
   0x22, 0x6B, 0x65, 0x79, 0x73, 0x22, 0x3A, 0x5B, 0x5D, 0x7D]

/-- Archive with full grid support but no grid row at any coordinate. -/
def wGridDbNoRow : Db :=
  { wGood with
    master_names := ["tiles", "metadata", "grids", "grid_data",
                     "grid_utfgrid", "keymap", "grid_key"] }

/-- Archive with a valid compressed grid blob at (1,2,3) whose companion
`grid_data` row carries a `key_json` value that is not JSON. -/
def wGridDbBadJson : Db :=
  { wGridDbNoRow with
    grids := [⟨1, 2, 3, encode wGridPayload⟩],
    grid_data := [⟨1, 2, 3, "k1", "not json"⟩] }

/-- Directory tree `a/b/city.mbtiles` with a valid archive. -/
def wAbTree : FsEntries :=
  .cons (.dir "a" (.cons (.dir "b" (.cons (.file "city.mbtiles" wGood) .nil)) .nil)) .nil

/-- Root with one valid and one corrupt `.mbtiles` file. -/
def wGoodBadTree : FsEntries :=
  .cons (.file "good.mbtiles" wGood) (.cons (.file "bad.mbtiles" wBad) .nil)

/-- Directory whose name contains a dot, holding a valid archive. -/
def wDotDirTree : FsEntries :=
  .cons (.dir "b.zip" (.cons (.file "city.mbtiles" wGood) .nil)) .nil

/-- Two dotted directories whose stems collide, so both archives derive
the id `x/y`. -/
def wCollisionTree : FsEntries :=
  .cons (.dir "x.one" (.cons (.file "y.mbtiles" wGood) .nil))
    (.cons (.dir "x.two" (.cons (.file "y.mbtiles" { wGood with path := "g2" }) .nil)) .nil)

/-! Claim theorems. -/

/-- C1: for every tile query on an archive that opens and has a `tiles`
schema object, a miss (no row at the coordinate) yields exactly the fixed
blank PNG, a hit yields the stored bytes unchanged, and the call never
returns an error (nor panics) — a miss is never surfaced to the caller. -/
theorem getTile_miss_blank_hit_unchanged (db : Db) (hopen : db.openable = true)
    (htab : "tiles" ∈ db.master_names) (z x y : Nat) :
    (find_tile_row db z x y = none →
       get_tile_data db z x y = .ok get_blank_image) ∧
    (∀ r, find_tile_row db z x y = some r →
       get_tile_data db z x y = .ok r.tile_data) ∧
    get_tile_data db z x y ≠ .err ∧ get_tile_data db z x y ≠ .panic := by
  unfold get_tile_data
  rw [hopen]
  simp only [Bool.true_eq_false, if_false, if_pos htab]
  cases h : find_tile_row db z x y <;> simp [h]

/-- Witness for C1 at a concrete archive: the stored row at (1,2,3) comes
back unchanged. -/
theorem getTile_miss_blank_hit_unchanged_witness :
    wTileDb.openable = true ∧ "tiles" ∈ wTileDb.master_names ∧
    get_tile_data wTileDb 1 2 3 = .ok [9, 9] := by
  refine ⟨rfl, by decide, ?_⟩
  exact (getTile_miss_blank_hit_unchanged wTileDb rfl (by decide) 1 2 3).2.1
    ⟨1, 2, 3, [9, 9]⟩ (by decide)

/-- C2 (divergence): the format detector panics — modelled as `none` —
on the empty buffer and on any non-matching buffer shorter than a checked
prefix, instead of returning `UNKNOWN`; buffers long enough for a match
are classified. -/
theorem getDataFormat_short_buffer_panics :
    get_data_format [] = none ∧
    get_data_format [0x1f] = none ∧
    get_data_format [0, 0, 0] = none ∧
    get_data_format [0, 1, 2, 3, 4, 5, 6, 7, 8, 9, 10, 11, 12] = none ∧
    get_data_format [0x1f, 0x8b] = some .GZIP ∧
    get_data_format [0x78, 0x9c] = some .ZLIB := by decide

/-- C3 (divergence): a `minzoom` metadata value that does not parse as a
non-negative integer makes `get_tile_details` panic (`value.parse()
.unwrap()`), rather than fail by returning an error. -/
theorem getTileDetails_bad_minzoom_panics :
    get_tile_details wBadZoomDb "t" = .panic := by decide

/-- C4 (divergence): a buffer with `RIFF` at offset 0 and `WEBP` at
offset 8 but a size field other than `c0 00 00 00` is classified
`UNKNOWN`, not `WEBP`: the comparison byte-pins the size field (and the
two bytes `VP` after the `WEBP` tag). -/
theorem getDataFormat_webp_pins_size_field :
    get_data_format [0x52, 0x49, 0x46, 0x46, 0x01, 0x00, 0x00, 0x00,
                     0x57, 0x45, 0x42, 0x50, 0x56, 0x50] = some .UNKNOWN ∧
    get_data_format [0x52, 0x49, 0x46, 0x46, 0xc0, 0x00, 0x00, 0x00,
                     0x57, 0x45, 0x42, 0x50, 0x56, 0x50] = some .WEBP := by decide

/-- C5 (divergence): a grid query with no stored grid row does fail with
a returned error, but a malformed `key_json` companion row makes the call
panic (`serde_json::from_str(..).unwrap()`), not fail with a returned
error. -/
theorem getGridData_miss_errs_bad_json_panics :
    get_grid_data wGridDbNoRow 1 2 3 = .err ∧
    get_grid_data wGridDbBadJson 1 2 3 = .panic :=
  ⟨rfl, rfl⟩

/-- C6 (divergence): `decode` inflates GZIP and ZLIB input and returns an
error on any other format tag, but a corrupt stream panics
(`read_to_string(..).unwrap()`) instead of failing with a returned
error. -/
theorem decode_formats_and_corrupt_stream :
    decode (encode [104, 105]) .GZIP = .ok [104, 105] ∧
    decode [0x78, 0x9c, 65] .ZLIB = .ok [65] ∧
    decode [1, 2, 3] .PNG = .err ∧
    decode [1, 2, 3] .JSON = .err ∧
    decode [1, 2, 3] .UNKNOWN = .err ∧
    decode [0, 1, 2] .GZIP = .panic ∧
    decode [0, 1, 2] .ZLIB = .panic := by decide

/-- C7: decoding the result of `encode` with the GZIP tag round-trips any
UTF-8-safe byte sequence unchanged. -/
theorem decode_encode_roundtrip (x : List Nat) (h : utf8Valid x = true) :
    decode (encode x) .GZIP = .ok x := by
  unfold decode encode gzipCompress gzipDecompress
  simp [h]

/-- Witness for C7 at the concrete UTF-8-safe sequence `[104, 105]`
("hi"). -/
theorem decode_encode_roundtrip_witness :
    utf8Valid [104, 105] = true ∧ decode (encode [104, 105]) .GZIP = .ok [104, 105] :=
  ⟨by decide, decode_encode_roundtrip [104, 105] (by decide)⟩

/-- C9: the bounds value `"-10,20,30,40.5"` parses to the four numbers
`[-10, 20, 30, 40.5]`, and a value with one non-numeric component drops
that component silently while `get_tile_details` still succeeds. -/
theorem bounds_parse_lenient_drop :
    get_tile_details wBoundsDb "t" =
      .ok { wGoodMeta "t" with
              bounds := some [mkQ (-10) 1, mkQ 20 1, mkQ 30 1, mkQ 81 2] } ∧
    get_tile_details wBoundsDropDb "t" =
      .ok { wGoodMeta "t" with
              bounds := some [mkQ (-10) 1, mkQ 30 1, mkQ 81 2] } := by decide

/-! Helper lemmas about the association-list `HashMap` model and the
walk, shared by the discovery theorems. -/

/-- Keys of the association-list model of a `HashMap`. -/
def hmKeys {α : Type} (m : List (String × α)) : List String :=
  m.map Prod.fst

/-- Looking a key up right after inserting it yields the inserted value:
the insert removed every earlier binding of that key. -/
theorem hmLookup_hmInsert {α : Type} (m : List (String × α)) (k : String) (v : α) :
    hmLookup (hmInsert m k v) k = some v := by
  unfold hmLookup hmInsert
  induction m with
  | nil => simp
  | cons p r ih =>
    by_cases hp : p.1 = k
    · simp [hp, ih]
    · simp [List.filter_cons, hp, ih]

/-- Inserting preserves distinctness of the keys. -/
theorem hmInsert_keyNodup {α : Type} (m : List (String × α)) (k : String) (v : α)
    (h : (hmKeys m).Nodup) : (hmKeys (hmInsert m k v)).Nodup := by
  unfold hmKeys hmInsert
  rw [List.map_append]
  refine List.Nodup.append ?_ (by simp) ?_
  · exact List.Nodup.sublist (List.Sublist.map Prod.fst (List.filter_sublist m)) h
  · intro a ha hb
    simp only [List.map_cons, List.map_nil, List.mem_singleton] at hb
    subst hb
    obtain ⟨p, hp, hpa⟩ := List.mem_map.mp ha
    have hf := List.of_mem_filter hp
    rw [hpa] at hf
    simp at hf

/-- Extending preserves distinctness of the base map's keys. -/
theorem hmExtend_keyNodup {α : Type} (m2 m : List (String × α))
    (h : (hmKeys m).Nodup) : (hmKeys (hmExtend m m2)).Nodup := by
  induction m2 generalizing m with
  | nil => exact h
  | cons p r ih =>
    simpa [hmExtend] using ih (hmInsert m p.1 p.2) (hmInsert_keyNodup m p.1 p.2 h)

/-- Processing one directory entry preserves distinctness of the
accumulated map's keys. -/
theorem walkEntry_keyNodup (pd : String) (acc : List (String × TileMeta))
    (e : FsEntry) (res : List (String × TileMeta))
    (hacc : (hmKeys acc).Nodup) (heq : walkEntry pd acc e = .ok res) :
    (hmKeys res).Nodup := by
  cases e with
  | file name db =>
    unfold walkEntry at heq
    by_cases hx : fileExtension name = some "mbtiles"
    · rw [if_pos hx] at heq
      cases hdet : get_tile_details db (fileStem name) with
      | ok meta =>
        rw [hdet] at heq
        cases heq
        exact hmInsert_keyNodup acc (pd ++ fileStem name) meta hacc
      | err => rw [hdet] at heq; cases heq; exact hacc
      | panic => rw [hdet] at heq; cases heq
    · rw [if_neg hx] at heq; cases heq; exact hacc
  | dir name sub =>
    unfold walkEntry at heq
    cases hsub : walkEntries (pd ++ fileStem name ++ "/") [] sub with
    | ok m => rw [hsub] at heq; cases heq; exact hmExtend_keyNodup m acc hacc
    | err => rw [hsub] at heq; cases heq
    | panic => rw [hsub] at heq; cases heq

/-- The directory walk preserves distinctness of the accumulated map's
keys; in particular a successful walk from the empty accumulator maps
each id to exactly one `TileMeta`. -/
theorem walkEntries_keyNodup (pd : String) (acc : List (String × TileMeta))
    (l : FsEntries) (res : List (String × TileMeta))
    (hacc : (hmKeys acc).Nodup) (heq : walkEntries pd acc l = .ok res) :
    (hmKeys res).Nodup := by
  induction l using FsEntries.rec
    (motive_1 := fun _ => True)
    generalizing acc with
  | file _ _ => trivial
  | dir _ _ _ => trivial
  | nil =>
    unfold walkEntries at heq
    cases heq
    exact hacc
  | cons e rest _ ih =>
    unfold walkEntries at heq
    cases hw : walkEntry pd acc e with
    | ok acc2 =>
      rw [hw] at heq
      exact ih acc2 (walkEntry_keyNodup pd acc e acc2 hacc hw) heq
    | err => rw [hw] at heq; cases heq
    | panic => rw [hw] at heq; cases heq

/-- C8 (counterexample): in a tree `b.zip/city.mbtiles` the discovered id
is `"b/city"`, not the claimed `"b.zip/city"` — the walk joins directory
file *stems*, not directory names, so the `.zip` suffix of the directory
is stripped. -/
theorem discovery_dotted_dir_uses_stem :
    discover_tilesets "" wDotDirTree = .ok [("b/city", wGoodMeta "city")] ∧
    hmLookup [("b/city", wGoodMeta "city")] "b.zip/city" = none ∧
    "b/city" ≠ "b.zip/city" := by decide

/-- C8 (amended): the walk indexes exactly the files whose extension is
exactly `"mbtiles"` (case-sensitive), assigning each the id formed from
the accumulated directory *file stems* joined with `"/"` followed by the
file stem; a file whose open returns an error is skipped silently and the
walk continues; `a/b/city.mbtiles` yields id `"a/b/city"`; one valid plus
one corrupt archive yield exactly one entry; `.MBTILES` is not matched. -/
theorem discovery_indexes_mbtiles_files :
    (∀ pd acc name db rest, fileExtension name ≠ some "mbtiles" →
       walkEntries pd acc (.cons (.file name db) rest) = walkEntries pd acc rest) ∧
    (∀ pd acc name db rest, fileExtension name = some "mbtiles" →
       get_tile_details db (fileStem name) = .err →
       walkEntries pd acc (.cons (.file name db) rest) = walkEntries pd acc rest) ∧
    (∀ pd acc name db rest meta, fileExtension name = some "mbtiles" →
       get_tile_details db (fileStem name) = .ok meta →
       walkEntries pd acc (.cons (.file name db) rest) =
         walkEntries pd (hmInsert acc (pd ++ fileStem name) meta) rest) ∧
    discover_tilesets "" wAbTree = .ok [("a/b/city", wGoodMeta "city")] ∧
    discover_tilesets "" wGoodBadTree = .ok [("good", wGoodMeta "good")] ∧
    discover_tilesets "" (.cons (.file "x.MBTILES" wGood) .nil) = .ok [] := by
  refine ⟨?_, ?_, ?_, by decide, by decide, by decide⟩
  · intro pd acc name db rest hne
    conv_lhs => rw [walkEntries]
    rw [walkEntry, if_neg hne]
  · intro pd acc name db rest hx herr
    conv_lhs => rw [walkEntries]
    rw [walkEntry, if_pos hx, herr]
  · intro pd acc name db rest meta hx hok
    conv_lhs => rw [walkEntries]
    rw [walkEntry, if_pos hx, hok]

/-- Witness for C8 (amended) at a concrete corrupt archive: the failing
file is skipped and the walk goes on with the remaining entries. -/
theorem discovery_indexes_mbtiles_files_witness :
    fileExtension "bad.mbtiles" = some "mbtiles" ∧
    get_tile_details wBad (fileStem "bad.mbtiles") = .err ∧
    walkEntries "" [] (.cons (.file "bad.mbtiles" wBad) .nil) = walkEntries "" [] .nil := by
  refine ⟨by decide, by decide, ?_⟩
  exact discovery_indexes_mbtiles_files.2.1 "" [] "bad.mbtiles" wBad .nil
    (by decide) (by decide)

/-- C10: when two discovered archives derive the same id, the later
insertion replaces the earlier entry (`HashMap` insert overwrites: the
lookup after an insert yields the inserted value), a successful build
always has pairwise-distinct ids — each id maps to exactly one
`TileMeta` — and a concrete colliding tree completes without error with a
single entry holding the later archive's metadata. -/
theorem duplicate_id_last_insert_wins :
    (∀ (m : List (String × TileMeta)) k v, hmLookup (hmInsert m k v) k = some v) ∧
    (∀ pd acc l res, (hmKeys acc).Nodup → walkEntries pd acc l = .ok res →
       (hmKeys res).Nodup) ∧
    discover_tilesets "" wCollisionTree =
      .ok [("x/y", { wGoodMeta "y" with path := "g2" })] :=
  ⟨fun m k v => hmLookup_hmInsert m k v,
   fun pd acc l res h heq => walkEntries_keyNodup pd acc l res h heq,
   by decide⟩

/-- Witness for C10: the nodup invariant applied to the successful build
over the concrete colliding tree. -/
theorem duplicate_id_last_insert_wins_witness :
    (hmKeys ([] : List (String × TileMeta))).Nodup ∧
    (hmKeys [("x/y", { wGoodMeta "y" with path := "g2" })]).Nodup := by
  refine ⟨by simp [hmKeys], ?_⟩
  exact duplicate_id_last_insert_wins.2.1 "" [] wCollisionTree
    [("x/y", { wGoodMeta "y" with path := "g2" })] (by simp [hmKeys]) (by decide)

end Mbtiles
